import Mathlib

/-!
Verification of the route-generation engine of the drawmyroute backend.

The Python sources under backend/app/services are shallowly embedded:
floating point numbers become ℚ, Python dicts become structures, network
calls become oracle function parameters, and raising code returns
Except/Option.  Transcendental library calls (math.sqrt, math.cos,
math.sin, the haversine helper) are abstracted as explicit function
parameters of the embedding: no claim below depends on their values.
-/

/-- Model of Python round-half-to-even (the rounding used by round() and
by the .0f / .1f format specifiers), on rationals. -/
def roundHalfEven (q : ℚ) : ℤ :=
  let f := ⌊q⌋
  if q - f < 1/2 then f
  else if 1/2 < q - f then f + 1
  else if f % 2 = 0 then f else f + 1

/-- Model of Python round(x, digits). -/
def roundTo (q : ℚ) (digits : ℕ) : ℚ :=
  (roundHalfEven (q * 10 ^ digits) : ℚ) / 10 ^ digits

/-- Model of the Python format specifier .0f (no decimals). -/
def fmt0 (q : ℚ) : String :=
  toString (roundHalfEven q)

/-- Model of the Python format specifier .1f (one decimal). -/
def fmt1 (q : ℚ) : String :=
  let n := roundHalfEven (q * 10)
  if n < 0 then "-" ++ toString ((-n).toNat / 10) ++ "." ++ toString ((-n).toNat % 10)
  else toString (n.toNat / 10) ++ "." ++ toString (n.toNat % 10)

/-- Division that is explicitly partial, mirroring Python's ZeroDivisionError. -/
def qdiv (a b : ℚ) : Option ℚ :=
  if b = 0 then none else some (a / b)

/-! ## routing_config.py

The tunable constants.  Names follow the source; identifiers that the
source ends in "RATIO" are rendered with the suffix FRAC instead. -/

def ROAD_DETOUR_FACTOR : ℚ := 7/5
def SCALE_DAMPING : ℚ := 3/5
def SCALE_MIN : ℚ := 3/10
def SCALE_MAX : ℚ := 5/2
def MAX_ITERATIONS : ℕ := 4
def TARGET_FRAC_MIN : ℚ := 7/10
def TARGET_FRAC_MAX : ℚ := 3/2
def MAX_FAILED_SEGMENT_FRAC : ℚ := 1/4
def MIN_ACCEPTABLE_SCORE : ℚ := 40
def SCORE_WEIGHT_DISTANCE : ℚ := 2/5
def SCORE_WEIGHT_COVERAGE : ℚ := 2/5
def SCORE_WEIGHT_CLOSURE : ℚ := 1/5
def DETOUR_THRESHOLD : ℚ := 10
def MAX_SKIP_FRAC : ℚ := 3/20
def MIN_STRAIGHT_LINE_M : ℚ := 10

/-! ## Data model

RoutingResult is the dict produced by snap_to_roads_osrm and consumed by
scoring.py; route coordinates are GeoJSON (lng, lat) pairs. -/

structure RoutingResult where
  route_coordinates : List (ℚ × ℚ)
  distance_m : ℚ
  duration_s : ℚ
  failed_segments : ℕ
  total_segments : ℕ
  skipped_points : ℕ
  max_detour_frac : ℚ
  deriving Repr, DecidableEq

/-! ## scoring.py -/

/-- The distance-accuracy sub-score of calculate_route_quality
(scoring.py lines 49-67). -/
def distanceScore (distance_m target_distance_km : ℚ) : ℚ :=
  if 0 < target_distance_km then
    let dist_frac := distance_m / 1000 / target_distance_km
    if 9/10 ≤ dist_frac ∧ dist_frac ≤ 11/10 then 1
    else if 7/10 ≤ dist_frac ∧ dist_frac ≤ 13/10 then 1 - |dist_frac - 1| * (1/2)
    else if 1/2 ≤ dist_frac ∧ dist_frac ≤ 3/2 then 1/2 - |dist_frac - 1| * (1/4)
    else 1/5
  else 1/2

/-- failed_segments / max(total_segments, 1), as computed in scoring.py. -/
def failedFracOf (result : RoutingResult) : ℚ :=
  (result.failed_segments : ℚ) / ((max result.total_segments 1 : ℕ) : ℚ)

/-- actual_km / target, the distance accuracy quotient of scoring.py. -/
def distFracOf (result : RoutingResult) (target_distance_km : ℚ) : ℚ :=
  result.distance_m / 1000 / target_distance_km

/-- calculate_route_quality (scoring.py).  haversineFn abstracts the
haversine_distance_m helper, which is trigonometric. -/
def calculate_route_quality (haversineFn : (ℚ × ℚ) → (ℚ × ℚ) → ℚ)
    (result : RoutingResult) (target_distance_km : ℚ) : ℚ :=
  let distance_score := distanceScore result.distance_m target_distance_km
  let coverage_score := 1 - failedFracOf result
  let coords := result.route_coordinates
  let closure_score :=
    if 2 ≤ coords.length then
      1 / (haversineFn (coords.headD (0, 0)) (coords.getLastD (0, 0)) / 100 + 1)
    else 1/2
  roundTo ((SCORE_WEIGHT_DISTANCE * distance_score +
            SCORE_WEIGHT_COVERAGE * coverage_score +
            SCORE_WEIGHT_CLOSURE * closure_score) * 100) 1

def tooManyFailedMsg (failed_frac : ℚ) : String :=
  "too many failed segments (" ++ fmt0 (failed_frac * 100) ++ "%)"

def tooLongMsg (dist_frac : ℚ) : String :=
  "route too long (" ++ fmt1 dist_frac ++ "x target)"

def tooShortMsg (dist_frac : ℚ) : String :=
  "route too short (" ++ fmt1 dist_frac ++ "x target)"

def qualityTooLowMsg (score : ℚ) : String :=
  "quality too low (score " ++ fmt0 score ++ ")"

def emptyReason : String := ""

/-- is_route_acceptable (scoring.py lines 94-124). -/
def is_route_acceptable (haversineFn : (ℚ × ℚ) → (ℚ × ℚ) → ℚ)
    (result : RoutingResult) (target_distance_km : ℚ) : Bool × String :=
  let failed_frac := failedFracOf result
  if MAX_FAILED_SEGMENT_FRAC < failed_frac then
    (false, tooManyFailedMsg failed_frac)
  else
    let dist_frac := distFracOf result target_distance_km
    if TARGET_FRAC_MAX < dist_frac then (false, tooLongMsg dist_frac)
    else if dist_frac < TARGET_FRAC_MIN then (false, tooShortMsg dist_frac)
    else
      let score := calculate_route_quality haversineFn result target_distance_km
      if score < MIN_ACCEPTABLE_SCORE then (false, qualityTooLowMsg score)
      else (true, emptyReason)

/-- Helper: the distance sub-score as a function of the deviation
d = |ratio - 1|.  Used to state monotonicity (claim C9). -/
def distScoreOfDev (d : ℚ) : ℚ :=
  if d ≤ 1/10 then 1
  else if d ≤ 3/10 then 1 - d * (1/2)
  else if d ≤ 1/2 then 1/2 - d * (1/4)
  else 1/5

lemma distanceScore_eq_dev (distance_m target : ℚ) (ht : 0 < target) :
    distanceScore distance_m target = distScoreOfDev |distance_m / 1000 / target - 1| := by
  unfold distanceScore distScoreOfDev
  rw [if_pos ht]
  set r := distance_m / 1000 / target with hr
  have h1 : (9/10 ≤ r ∧ r ≤ 11/10) ↔ |r - 1| ≤ 1/10 := by
    rw [abs_le]; constructor <;> intro h <;> constructor <;> linarith [h.1, h.2]
  have h2 : (7/10 ≤ r ∧ r ≤ 13/10) ↔ |r - 1| ≤ 3/10 := by
    rw [abs_le]; constructor <;> intro h <;> constructor <;> linarith [h.1, h.2]
  have h3 : (1/2 ≤ r ∧ r ≤ 3/2) ↔ |r - 1| ≤ 1/2 := by
    rw [abs_le]; constructor <;> intro h <;> constructor <;> linarith [h.1, h.2]
  by_cases c1 : |r - 1| ≤ 1/10
  · rw [if_pos (h1.mpr c1), if_pos c1]
  · rw [if_neg (fun hc => c1 (h1.mp hc)), if_neg c1]
    by_cases c2 : |r - 1| ≤ 3/10
    · rw [if_pos (h2.mpr c2), if_pos c2]
    · rw [if_neg (fun hc => c2 (h2.mp hc)), if_neg c2]
      by_cases c3 : |r - 1| ≤ 1/2
      · rw [if_pos (h3.mpr c3), if_pos c3]
      · rw [if_neg (fun hc => c3 (h3.mp hc)), if_neg c3]

lemma distScoreOfDev_antitone {d1 d2 : ℚ} (h12 : d1 ≤ d2) :
    distScoreOfDev d2 ≤ distScoreOfDev d1 := by
  unfold distScoreOfDev
  split_ifs <;> linarith

lemma distScoreOfDev_nonneg (d : ℚ) : 0 ≤ distScoreOfDev d := by
  unfold distScoreOfDev
  split_ifs <;> linarith

/-- C9: for positive target, the distance sub-score is exactly 1 at
ratio 1, non-increasing in the deviation |ratio - 1|, and never
negative. -/
theorem C9_distance_subscore_shape (target : ℚ) (ht : 0 < target) :
    distanceScore (1000 * target) target = 1 ∧
    (∀ dm1 dm2 : ℚ, |dm1 / 1000 / target - 1| ≤ |dm2 / 1000 / target - 1| →
      distanceScore dm2 target ≤ distanceScore dm1 target) ∧
    (∀ dm : ℚ, 0 ≤ distanceScore dm target) := by
  refine ⟨?_, ?_, ?_⟩
  · rw [distanceScore_eq_dev _ _ ht]
    have : (1000 : ℚ) * target / 1000 / target = 1 := by
      field_simp
    rw [this]
    simp [distScoreOfDev]
  · intro dm1 dm2 h
    rw [distanceScore_eq_dev _ _ ht, distanceScore_eq_dev _ _ ht]
    exact distScoreOfDev_antitone h
  · intro dm
    rw [distanceScore_eq_dev _ _ ht]
    exact distScoreOfDev_nonneg _

/-- Witness for C9 at target = 2, comparing distances 2000 m and 3400 m. -/
theorem C9_witness :
    (0 : ℚ) < 2 ∧ distanceScore (1000 * 2) 2 = 1 ∧
      distanceScore 3400 2 ≤ distanceScore 2000 2 ∧ 0 ≤ distanceScore 3400 2 := by
  have h := C9_distance_subscore_shape 2 (by norm_num)
  exact ⟨by norm_num, h.1, h.2.1 2000 3400 (by norm_num), h.2.2 3400⟩

/-- C1 counterexample: at ratio 0.7 (distance 700 m against a 1 km
target) the code's distance sub-score is 0.85, not the 0.5 the claim
asserts. -/
theorem C1_counterexample :
    distanceScore 700 1 = 17/20 ∧ ¬ distanceScore 700 1 = 1/2 := by
  have h : distanceScore 700 1 = 17/20 := by
    norm_num [distanceScore, abs_of_pos]
  exact ⟨h, by rw [h]; norm_num⟩

/-- C1 (amended): the distance sub-score is 1 on ratio ∈ [0.9, 1.1],
equals 1 - 0.5·|ratio-1| on [0.7, 1.3] outside the perfect band (hence
0.85, not 0.5, at ratio 0.7 and 1.3), equals 0.5 - 0.25·|ratio-1| on
[0.5, 1.5] outside that, and is the 0.2 floor outside [0.5, 1.5]. -/
theorem C1_distance_subscore_piecewise (distance_m target : ℚ) (ht : 0 < target) :
    (9/10 ≤ distance_m / 1000 / target → distance_m / 1000 / target ≤ 11/10 →
      distanceScore distance_m target = 1) ∧
    (7/10 ≤ distance_m / 1000 / target → distance_m / 1000 / target ≤ 13/10 →
      ¬ (9/10 ≤ distance_m / 1000 / target ∧ distance_m / 1000 / target ≤ 11/10) →
      distanceScore distance_m target = 1 - |distance_m / 1000 / target - 1| * (1/2)) ∧
    (1/2 ≤ distance_m / 1000 / target → distance_m / 1000 / target ≤ 3/2 →
      ¬ (7/10 ≤ distance_m / 1000 / target ∧ distance_m / 1000 / target ≤ 13/10) →
      distanceScore distance_m target = 1/2 - |distance_m / 1000 / target - 1| * (1/4)) ∧
    (¬ (1/2 ≤ distance_m / 1000 / target ∧ distance_m / 1000 / target ≤ 3/2) →
      distanceScore distance_m target = 1/5) := by
  unfold distanceScore
  rw [if_pos ht]
  set r := distance_m / 1000 / target with hr
  refine ⟨?_, ?_, ?_, ?_⟩
  · intro ha hb
    rw [if_pos ⟨ha, hb⟩]
  · intro ha hb hn
    rw [if_neg hn, if_pos ⟨ha, hb⟩]
  · intro ha hb hn
    have hn9 : ¬ (9/10 ≤ r ∧ r ≤ 11/10) := by
      intro hc; exact hn ⟨by linarith [hc.1], by linarith [hc.2]⟩
    rw [if_neg hn9, if_neg hn, if_pos ⟨ha, hb⟩]
  · intro hn
    have hn9 : ¬ (9/10 ≤ r ∧ r ≤ 11/10) := by
      intro hc; exact hn ⟨by linarith [hc.1], by linarith [hc.2]⟩
    have hn7 : ¬ (7/10 ≤ r ∧ r ≤ 13/10) := by
      intro hc; exact hn ⟨by linarith [hc.1], by linarith [hc.2]⟩
    rw [if_neg hn9, if_neg hn7, if_neg hn]

/-- Witness for C1's amended theorem at ratio 0.7 (distance 700 m,
target 1 km). -/
theorem C1_witness :
    (0 : ℚ) < 1 ∧ distanceScore 700 1 = 1 - |(700 : ℚ) / 1000 / 1 - 1| * (1/2) := by
  refine ⟨by norm_num, ?_⟩
  exact (C1_distance_subscore_piecewise 700 1 (by norm_num)).2.1
    (by norm_num) (by norm_num) (by norm_num)

/-- C4: is_route_acceptable rejects with the first violated condition in
priority order (failed-segment check, then distance band, then minimum
score), and in particular a result with 5 failed of 10 total segments is
rejected with reason "too many failed segments (50%)" regardless of the
other fields. -/
theorem C4_is_acceptable_priority :
    (∀ (haversineFn : (ℚ × ℚ) → (ℚ × ℚ) → ℚ) (result : RoutingResult) (target : ℚ),
      MAX_FAILED_SEGMENT_FRAC < failedFracOf result →
        is_route_acceptable haversineFn result target =
          (false, tooManyFailedMsg (failedFracOf result))) ∧
    (∀ (haversineFn : (ℚ × ℚ) → (ℚ × ℚ) → ℚ) (result : RoutingResult) (target : ℚ),
      ¬ MAX_FAILED_SEGMENT_FRAC < failedFracOf result →
      TARGET_FRAC_MAX < distFracOf result target →
        is_route_acceptable haversineFn result target =
          (false, tooLongMsg (distFracOf result target))) ∧
    (∀ (haversineFn : (ℚ × ℚ) → (ℚ × ℚ) → ℚ) (result : RoutingResult) (target : ℚ),
      ¬ MAX_FAILED_SEGMENT_FRAC < failedFracOf result →
      ¬ TARGET_FRAC_MAX < distFracOf result target →
      distFracOf result target < TARGET_FRAC_MIN →
        is_route_acceptable haversineFn result target =
          (false, tooShortMsg (distFracOf result target))) ∧
    (∀ (haversineFn : (ℚ × ℚ) → (ℚ × ℚ) → ℚ) (result : RoutingResult) (target : ℚ),
      ¬ MAX_FAILED_SEGMENT_FRAC < failedFracOf result →
      ¬ TARGET_FRAC_MAX < distFracOf result target →
      ¬ distFracOf result target < TARGET_FRAC_MIN →
      calculate_route_quality haversineFn result target < MIN_ACCEPTABLE_SCORE →
        is_route_acceptable haversineFn result target =
          (false, qualityTooLowMsg (calculate_route_quality haversineFn result target))) ∧
    is_route_acceptable (fun _ _ => 0) ⟨[], 0, 0, 5, 10, 0, 1⟩ 5 =
      (false, "too many failed segments (50%)") := by
  refine ⟨?_, ?_, ?_, ?_, ?_⟩
  · intro hFn result target h1
    simp only [is_route_acceptable]
    rw [if_pos h1]
  · intro hFn result target h1 h2
    simp only [is_route_acceptable]
    rw [if_neg h1, if_pos h2]
  · intro hFn result target h1 h2 h3
    simp only [is_route_acceptable]
    rw [if_neg h1, if_neg h2, if_pos h3]
  · intro hFn result target h1 h2 h3 h4
    simp only [is_route_acceptable]
    rw [if_neg h1, if_neg h2, if_neg h3, if_pos h4]
  · have hf : failedFracOf ⟨[], 0, 0, 5, 10, 0, 1⟩ = 1/2 := by
      norm_num [failedFracOf]
    have hmsg : tooManyFailedMsg (1/2) = "too many failed segments (50%)" := by
      have hflo : roundHalfEven ((1:ℚ)/2 * 100) = 50 := by
        norm_num [roundHalfEven]
      simp only [tooManyFailedMsg, fmt0, hflo]
      rfl
    simp only [is_route_acceptable, hf]
    rw [if_pos (by norm_num [MAX_FAILED_SEGMENT_FRAC])]
    rw [hmsg]

/-- Witness for C4's universally quantified parts: a result with failed
ratio 0.4, and one with distance ratio 2.0 against a 1 km target. -/
theorem C4_witness :
    is_route_acceptable (fun _ _ => 0) ⟨[], 0, 0, 2, 5, 0, 1⟩ 1 =
      (false, tooManyFailedMsg (failedFracOf ⟨[], 0, 0, 2, 5, 0, 1⟩)) ∧
    is_route_acceptable (fun _ _ => 0) ⟨[], 2000, 0, 0, 5, 0, 1⟩ 1 =
      (false, tooLongMsg (distFracOf ⟨[], 2000, 0, 0, 5, 0, 1⟩ 1)) := by
  constructor
  · exact C4_is_acceptable_priority.1 (fun _ _ => 0) ⟨[], 0, 0, 2, 5, 0, 1⟩ 1
      (by norm_num [MAX_FAILED_SEGMENT_FRAC, failedFracOf])
  · exact C4_is_acceptable_priority.2.1 (fun _ _ => 0) ⟨[], 2000, 0, 0, 5, 0, 1⟩ 1
      (by norm_num [MAX_FAILED_SEGMENT_FRAC, failedFracOf])
      (by norm_num [TARGET_FRAC_MAX, distFracOf])

/-! ## route_generator.py — the iterative scaling controller

route_with_scaling (lines 58-124).  The routing backend is abstracted as
a stub function from the current scale factor to a routing outcome; only
the fields the scaling loop reads are modelled. -/

structure StubResult where
  distance_m : ℚ
  failed_segments : ℕ
  total_segments : ℕ

/-- The clamp of line 112: max(SCALE_MIN, min(SCALE_MAX, scale_factor)). -/
def clampScale (s : ℚ) : ℚ := max SCALE_MIN (min SCALE_MAX s)

/-- The scale adjustment of lines 110-112. -/
def scaleUpdate (s target actual_km : ℚ) : ℚ :=
  clampScale (s * (1 + (target / actual_km - 1) * SCALE_DAMPING))

/-- The sequence of scale factors used by the iteration loop of
route_with_scaling (lines 64-112), given a routing stub.  Each list
entry is the scale factor in effect for one iteration; the loop stops
early on a failed-coverage raise or on convergence. -/
def rwsScalesAux (router : ℚ → StubResult) (target : ℚ) : ℕ → ℚ → List ℚ
  | 0, _ => []
  | n + 1, s =>
    let r := router s
    let failed_frac := (r.failed_segments : ℚ) / ((max r.total_segments 1 : ℕ) : ℚ)
    if MAX_FAILED_SEGMENT_FRAC < failed_frac then [s]
    else
      let actual_km := r.distance_m / 1000
      let dist_frac := actual_km / target
      if TARGET_FRAC_MIN ≤ dist_frac ∧ dist_frac ≤ TARGET_FRAC_MAX then [s]
      else s :: rwsScalesAux router target n (scaleUpdate s target actual_km)

/-- Scale factors used over the default MAX_ITERATIONS budget, starting
from scale_factor = 1.0 (line 58). -/
def rwsScales (router : ℚ → StubResult) (target : ℚ) : List ℚ :=
  rwsScalesAux router target MAX_ITERATIONS 1

/-- C2: with a stub returning distance 3× target, the scale factors used
over the 4 default iterations are [1, 0.6, 0.36, 0.3]: strictly
decreasing and always within [0.3, 2.5]. -/
theorem C2_scale_factor_trace (target : ℚ) (ht : 0 < target) :
    rwsScales (fun _ => ⟨3000 * target, 0, 40⟩) target = [1, 3/5, 9/25, 3/10] ∧
    List.Chain' (fun a b => b < a)
      (rwsScales (fun _ => ⟨3000 * target, 0, 40⟩) target) ∧
    ∀ s ∈ rwsScales (fun _ => ⟨3000 * target, 0, 40⟩) target,
      SCALE_MIN ≤ s ∧ s ≤ SCALE_MAX := by
  have hne : target ≠ 0 := ne_of_gt ht
  have hstep : ∀ (n : ℕ) (s : ℚ),
      rwsScalesAux (fun _ => ⟨3000 * target, 0, 40⟩) target (n + 1) s =
        s :: rwsScalesAux (fun _ => ⟨3000 * target, 0, 40⟩) target n
          (clampScale (s * (3/5))) := by
    intro n s
    have h2 : 3000 * target / 1000 / target = 3 := by
      field_simp
      ring
    have h3 : target / (3000 * target / 1000) = 1/3 := by
      rw [show (3000 : ℚ) * target / 1000 = target * 3 by ring]
      rw [div_mul_eq_div_div, div_self hne]
    simp only [rwsScalesAux]
    rw [if_neg (by norm_num [MAX_FAILED_SEGMENT_FRAC])]
    rw [if_neg (by rw [h2]; norm_num [TARGET_FRAC_MIN, TARGET_FRAC_MAX])]
    simp only [scaleUpdate, h3, SCALE_DAMPING]
    norm_num
  have e1 : rwsScales (fun _ => ⟨3000 * target, 0, 40⟩) target = [1, 3/5, 9/25, 3/10] := by
    show rwsScalesAux (fun _ => ⟨3000 * target, 0, 40⟩) target 4 1 = _
    rw [hstep 3 1, hstep 2, hstep 1, hstep 0]
    have c1 : clampScale (1 * (3/5)) = 3/5 := by
      norm_num [clampScale, SCALE_MIN, SCALE_MAX, min_def, max_def]
    have c2 : clampScale ((3:ℚ)/5 * (3/5)) = 9/25 := by
      norm_num [clampScale, SCALE_MIN, SCALE_MAX, min_def, max_def]
    have c3 : clampScale ((9:ℚ)/25 * (3/5)) = 3/10 := by
      norm_num [clampScale, SCALE_MIN, SCALE_MAX, min_def, max_def]
    rw [c1, c2, c3]
    simp [rwsScalesAux]
  refine ⟨e1, ?_, ?_⟩
  · rw [e1]
    simp only [List.chain'_cons, List.chain'_singleton, and_true]
    norm_num
  · rw [e1]
    intro s hs
    simp only [List.mem_cons, List.not_mem_nil, or_false] at hs
    rcases hs with h | h | h | h <;> subst h <;>
      exact ⟨by norm_num [SCALE_MIN], by norm_num [SCALE_MAX]⟩

/-- Witness for C2 at target distance 5 km. -/
theorem C2_witness :
    (0 : ℚ) < 5 ∧
      rwsScales (fun _ => ⟨3000 * 5, 0, 40⟩) 5 = [1, 3/5, 9/25, 3/10] :=
  ⟨by norm_num, (C2_scale_factor_trace 5 (by norm_num)).1⟩

/-! ## geo_scaler.py

scale_to_gps converts abstract shape points to GPS coordinates with
perimeter-based scaling.  math.sqrt / math.cos / math.sin are abstracted
into a FloatOps record; cosDeg d and sinDeg d model the source's
cos(radians(d)) and sin(radians(d)).  Each division of the source goes
through qdiv, so the embedding returns none exactly where Python would
raise ZeroDivisionError. -/

structure FloatOps where
  sqrtFn : ℚ → ℚ
  cosDeg : ℚ → ℚ
  sinDeg : ℚ → ℚ

/-- calculate_perimeter (geo_scaler.py lines 5-19): sum of consecutive
Euclidean distances, wrapping last→first. -/
def calculate_perimeter (sqrtFn : ℚ → ℚ) (points : List (ℚ × ℚ)) : ℚ :=
  if points.length < 2 then 0
  else ((points.zip (points.rotate 1)).map
    (fun pq => sqrtFn ((pq.2.1 - pq.1.1) ^ 2 + (pq.2.2 - pq.1.2) ^ 2))).sum

/-- scale_to_gps (geo_scaler.py lines 22-116), perimeter-matching mode.
The aspect-ratio argument is named aspect here. -/
def scale_to_gps (ops : FloatOps) (points : List (ℚ × ℚ))
    (start_lat start_lng distance_km scale_factor rotation_deg aspect : ℚ) :
    Option (List (ℚ × ℚ)) :=
  match points with
  | [] => none
  | p0 :: rest =>
    let min_x := (rest.map Prod.fst).foldl min p0.1
    let max_x := (rest.map Prod.fst).foldl max p0.1
    let min_y := (rest.map Prod.snd).foldl min p0.2
    let max_y := (rest.map Prod.snd).foldl max p0.2
    let width := max_x - min_x
    let height := max_y - min_y
    let max_dim0 := max width height
    let max_dim := if max_dim0 = 0 then 1 else max_dim0
    let center_x := (min_x + max_x) / 2
    let center_y := (min_y + max_y) / 2
    let normalized0 := (p0 :: rest).map
      (fun p => ((p.1 - center_x) / max_dim, (p.2 - center_y) / max_dim))
    let normalized :=
      if rotation_deg ≠ 0 then
        let cos_r := ops.cosDeg rotation_deg
        let sin_r := ops.sinDeg rotation_deg
        normalized0.map (fun n => (n.1 * cos_r - n.2 * sin_r, n.1 * sin_r + n.2 * cos_r))
      else normalized0
    let abstract_perimeter0 := calculate_perimeter ops.sqrtFn normalized
    let abstract_perimeter := if abstract_perimeter0 < 1/100 then 4 else abstract_perimeter0
    let target_perimeter_km := distance_km / ROAD_DETOUR_FACTOR
    do
      let km_per_unit0 ← qdiv target_perimeter_km abstract_perimeter
      let km_per_unit := km_per_unit0 * scale_factor
      let ar_factor := ops.sqrtFn aspect
      let scale_x_km ← qdiv km_per_unit ar_factor
      let scale_y_km := km_per_unit * ar_factor
      let deg_per_km_lat := 1 / (11132/100 : ℚ)
      let deg_per_km_lng ← qdiv 1 ((11132/100 : ℚ) * ops.cosDeg start_lat)
      some (normalized.map (fun n =>
        (start_lat + (-n.2 * scale_y_km * deg_per_km_lat),
         start_lng + n.1 * scale_x_km * deg_per_km_lng)))

lemma qdiv_some {a b : ℚ} (h : b ≠ 0) : qdiv a b = some (a / b) := by
  simp [qdiv, h]

lemma perimeter_guard_ne_zero (x : ℚ) : (if x < 1/100 then (4:ℚ) else x) ≠ 0 := by
  split_ifs with h
  · norm_num
  · intro h0
    rw [h0] at h
    norm_num at h

/-- C7: for any point list of length ≥ 3 and positive target distance,
scale_to_gps succeeds (the guarded perimeter and bounding-box divisors
are never zero) and yields as many GPS waypoints as input points.  The
two nonzeroness side conditions model the IEEE facts sqrt(aspect) ≠ 0
for positive aspect and cos(lat) ≠ 0. -/
theorem C7_scale_to_gps_total (ops : FloatOps) (points : List (ℚ × ℚ))
    (start_lat start_lng distance_km scale_factor rotation_deg aspect : ℚ)
    (h3 : 3 ≤ points.length) (hd : 0 < distance_km)
    (har : ops.sqrtFn aspect ≠ 0) (hcos : ops.cosDeg start_lat ≠ 0) :
    ∃ out, scale_to_gps ops points start_lat start_lng distance_km scale_factor
        rotation_deg aspect = some out ∧ out.length = points.length := by
  obtain ⟨p0, rest, rfl⟩ : ∃ p0 rest, points = p0 :: rest := by
    cases points with
    | nil => simp at h3
    | cons a b => exact ⟨a, b, rfl⟩
  have hlngden : (11132/100 : ℚ) * ops.cosDeg start_lat ≠ 0 :=
    mul_ne_zero (by norm_num) hcos
  simp only [scale_to_gps]
  rw [qdiv_some (perimeter_guard_ne_zero _)]
  simp only [Option.bind_eq_bind, Option.some_bind]
  rw [qdiv_some har]
  simp only [Option.bind_eq_bind, Option.some_bind]
  rw [qdiv_some hlngden]
  simp only [Option.bind_eq_bind, Option.some_bind]
  refine ⟨_, rfl, ?_⟩
  split_ifs <;> simp

/-- Concrete float-ops used to witness C7: identity square root, unit
cosine, zero sine. -/
def opsW : FloatOps := ⟨fun q => q, fun _ => 1, fun _ => 0⟩

/-- Witness for C7 on a 3-point triangle with target 5 km. -/
theorem C7_witness :
    ∃ out, scale_to_gps opsW [(0, 0), (1, 0), (0, 1)] 0 0 5 1 0 1 = some out ∧
      out.length = ([(0, 0), (1, 0), (0, 1)] : List (ℚ × ℚ)).length := by
  exact C7_scale_to_gps_total opsW [(0, 0), (1, 0), (0, 1)] 0 0 5 1 0 1
    (by norm_num) (by norm_num) (by norm_num [opsW]) (by norm_num [opsW])

/-! ## optimizer.py — local search refiner

GPS points are (lat, lng) pairs.  The async evaluate_fn oracle becomes a
function to Option (score × result): none models a raised exception
(caught and skipped by the source).  cosFn lat models
math.cos(math.radians(lat)). -/

inductive Dir where
  | N | S | E | W
  deriving Repr, DecidableEq

def meters_to_degrees_lat (meters : ℚ) : ℚ := meters / 111320

def meters_to_degrees_lng (cosFn : ℚ → ℚ) (meters latitude : ℚ) : ℚ :=
  meters / (111320 * cosFn latitude)

/-- nudge_point (optimizer.py lines 26-56). -/
def nudge_point (cosFn : ℚ → ℚ) (point : ℚ × ℚ) (direction : Dir)
    (distance_m : ℚ) : ℚ × ℚ :=
  let d_lat := meters_to_degrees_lat distance_m
  let d_lng := meters_to_degrees_lng cosFn distance_m point.1
  match direction with
  | Dir.N => (point.1 + d_lat, point.2)
  | Dir.S => (point.1 - d_lat, point.2)
  | Dir.E => (point.1, point.2 + d_lng)
  | Dir.W => (point.1, point.2 - d_lng)

/-- nudge_point_set (optimizer.py lines 59-79); the callers only use
in-range indices, for which List.set matches the Python assignment. -/
def nudge_point_set (cosFn : ℚ → ℚ) (points : List (ℚ × ℚ)) (index : ℕ)
    (direction : Dir) (distance_m : ℚ) : List (ℚ × ℚ) :=
  points.set index (nudge_point cosFn (points.getD index (0, 0)) direction distance_m)

/-- State of the refinement loop: current_points, current_score,
current_result. -/
structure LSState (α : Type) where
  points : List (ℚ × ℚ)
  score : ℚ
  result : α

/-- A tracked best candidate inside one refinement round. -/
structure BestMove (α : Type) where
  imp : ℚ
  pts : List (ℚ × ℚ)
  score : ℚ
  result : α

/-- The improvement of the running best candidate: 0 while none has
been recorded yet (optimizer.py line 125), else its improvement. -/
def accImp (acc : Option (BestMove α)) : ℚ :=
  match acc with
  | none => 0
  | some b => b.imp

/-- The inner double loop of one refinement round (optimizer.py lines
129-149): scan all (index, direction) candidates, keeping the best
strict improvement over the running best (which starts at 0). -/
def scanBest (evalFn : List (ℚ × ℚ) → Option (ℚ × α)) (cosFn : ℚ → ℚ)
    (nudge_m : ℚ) (cur_pts : List (ℚ × ℚ)) (cur_score : ℚ) :
    List (ℕ × Dir) → Option (BestMove α) → Option (BestMove α)
  | [], acc => acc
  | c :: rest, acc =>
    let cand := nudge_point_set cosFn cur_pts c.1 c.2 nudge_m
    match evalFn cand with
    | none => scanBest evalFn cosFn nudge_m cur_pts cur_score rest acc
    | some sr =>
      let improvement := sr.1 - cur_score
      if accImp acc < improvement then
        scanBest evalFn cosFn nudge_m cur_pts cur_score rest
          (some ⟨improvement, cand, sr.1, sr.2⟩)
      else scanBest evalFn cosFn nudge_m cur_pts cur_score rest acc

/-- One round of the refinement loop (optimizer.py lines 123-160):
accept the best move when one was found and its improvement meets the
threshold, otherwise stop (none). -/
def refineRound (evalFn : List (ℚ × ℚ) → Option (ℚ × α)) (cosFn : ℚ → ℚ)
    (nudge_m threshold : ℚ) (cands : List (ℕ × Dir)) (st : LSState α) :
    Option (LSState α) :=
  match scanBest evalFn cosFn nudge_m st.points st.score cands none with
  | none => none
  | some b => if threshold ≤ b.imp then some ⟨b.pts, b.score, b.result⟩ else none

/-- The bounded iteration of rounds. -/
def refineLoop (evalFn : List (ℚ × ℚ) → Option (ℚ × α)) (cosFn : ℚ → ℚ)
    (nudge_m threshold : ℚ) (cands : List (ℕ × Dir)) :
    ℕ → LSState α → LSState α
  | 0, st => st
  | n + 1, st =>
    match refineRound evalFn cosFn nudge_m threshold cands st with
    | some st2 => refineLoop evalFn cosFn nudge_m threshold cands n st2
    | none => st

/-- local_search_refine (optimizer.py lines 82-162).  Source defaults:
max_iterations = 3, nudge_distance_m = 50, improvement_threshold = 1,
skip_first_last = true. -/
def local_search_refine (evalFn : List (ℚ × ℚ) → Option (ℚ × α)) (cosFn : ℚ → ℚ)
    (seed_points : List (ℚ × ℚ)) (seed_score : ℚ) (seed_result : α)
    (max_iterations : ℕ) (nudge_distance_m improvement_threshold : ℚ)
    (skip_first_last : Bool) : List (ℚ × ℚ) × ℚ × α :=
  let optimize_indices :=
    if skip_first_last = true ∧ 2 < seed_points.length then
      List.range' 1 (seed_points.length - 2)
    else List.range seed_points.length
  let cands := optimize_indices.flatMap
    (fun i => [Dir.N, Dir.S, Dir.E, Dir.W].map (fun d => (i, d)))
  let st := refineLoop evalFn cosFn nudge_distance_m improvement_threshold cands
    max_iterations ⟨seed_points, seed_score, seed_result⟩
  (st.points, st.score, st.result)


lemma scanBest_some_mem {α} (evalFn : List (ℚ × ℚ) → Option (ℚ × α))
    (cosFn : ℚ → ℚ) (nudge_m : ℚ) (cur_pts : List (ℚ × ℚ)) (cur_score : ℚ) :
    ∀ (cands : List (ℕ × Dir)) (acc : Option (BestMove α)) (b : BestMove α),
      scanBest evalFn cosFn nudge_m cur_pts cur_score cands acc = some b →
      acc = some b ∨
        ∃ c ∈ cands, b.pts = nudge_point_set cosFn cur_pts c.1 c.2 nudge_m ∧
          evalFn b.pts = some (b.score, b.result) ∧ b.imp = b.score - cur_score := by
  intro cands
  induction cands with
  | nil =>
    intro acc b h
    exact Or.inl h
  | cons c rest ih =>
    intro acc b h
    cases heval : evalFn (nudge_point_set cosFn cur_pts c.1 c.2 nudge_m) with
    | none =>
      simp only [scanBest, heval] at h
      rcases ih acc b h with h1 | ⟨c', hc', hrest⟩
      · exact Or.inl h1
      · exact Or.inr ⟨c', List.mem_cons_of_mem _ hc', hrest⟩
    | some sr =>
      simp only [scanBest, heval] at h
      by_cases hlt : accImp acc < sr.1 - cur_score
      · rw [if_pos hlt] at h
        rcases ih _ b h with h1 | ⟨c', hc', hrest⟩
        · refine Or.inr ⟨c, List.mem_cons_self c rest, ?_⟩
          obtain rfl : (⟨sr.1 - cur_score, nudge_point_set cosFn cur_pts c.1 c.2 nudge_m,
              sr.1, sr.2⟩ : BestMove α) = b := Option.some.inj h1
          exact ⟨rfl, by rw [heval], rfl⟩
        · exact Or.inr ⟨c', List.mem_cons_of_mem _ hc', hrest⟩
      · rw [if_neg hlt] at h
        rcases ih acc b h with h1 | ⟨c', hc', hrest⟩
        · exact Or.inl h1
        · exact Or.inr ⟨c', List.mem_cons_of_mem _ hc', hrest⟩

lemma scanBest_max {α} (evalFn : List (ℚ × ℚ) → Option (ℚ × α))
    (cosFn : ℚ → ℚ) (nudge_m : ℚ) (cur_pts : List (ℚ × ℚ)) (cur_score : ℚ) :
    ∀ (cands : List (ℕ × Dir)) (acc : Option (BestMove α)) (b : BestMove α),
      scanBest evalFn cosFn nudge_m cur_pts cur_score cands acc = some b →
      (acc = some b ∨ accImp acc < b.imp) ∧
        ∀ c ∈ cands, ∀ sr : ℚ × α,
          evalFn (nudge_point_set cosFn cur_pts c.1 c.2 nudge_m) = some sr →
            sr.1 - cur_score ≤ b.imp := by
  intro cands
  induction cands with
  | nil =>
    intro acc b h
    exact ⟨Or.inl h, by simp⟩
  | cons c rest ih =>
    intro acc b h
    cases heval : evalFn (nudge_point_set cosFn cur_pts c.1 c.2 nudge_m) with
    | none =>
      simp only [scanBest, heval] at h
      obtain ⟨h1, h2⟩ := ih acc b h
      refine ⟨h1, ?_⟩
      intro c' hc' sr hsr
      rcases List.mem_cons.mp hc' with rfl | hc'
      · rw [heval] at hsr; cases hsr
      · exact h2 c' hc' sr hsr
    | some sr0 =>
      simp only [scanBest, heval] at h
      by_cases hlt : accImp acc < sr0.1 - cur_score
      · rw [if_pos hlt] at h
        obtain ⟨h1, h2⟩ := ih _ b h
        have himp_le : sr0.1 - cur_score ≤ b.imp := by
          rcases h1 with h1 | h1
          · obtain rfl := Option.some.inj h1
            exact le_refl _
          · exact le_of_lt h1
        have hacc : acc = some b ∨ accImp acc < b.imp :=
          Or.inr (lt_of_lt_of_le hlt himp_le)
        refine ⟨hacc, ?_⟩
        intro c' hc' sr hsr
        rcases List.mem_cons.mp hc' with rfl | hc'
        · rw [heval] at hsr
          obtain rfl := Option.some.inj hsr
          exact himp_le
        · exact h2 c' hc' sr hsr
      · rw [if_neg hlt] at h
        obtain ⟨h1, h2⟩ := ih acc b h
        have haccle : accImp acc ≤ b.imp := by
          rcases h1 with h1 | h1
          · rw [h1]; exact le_refl _
          · exact le_of_lt h1
        refine ⟨h1, ?_⟩
        intro c' hc' sr hsr
        rcases List.mem_cons.mp hc' with rfl | hc'
        · rw [heval] at hsr
          obtain rfl := Option.some.inj hsr
          exact le_trans (not_lt.mp hlt) haccle
        · exact h2 c' hc' sr hsr

lemma scanBest_none_of {α} (evalFn : List (ℚ × ℚ) → Option (ℚ × α))
    (cosFn : ℚ → ℚ) (nudge_m : ℚ) (cur_pts : List (ℚ × ℚ)) (cur_score : ℚ)
    (h : ∀ pts (sr : ℚ × α), evalFn pts = some sr → sr.1 - cur_score ≤ 0) :
    ∀ cands, scanBest evalFn cosFn nudge_m cur_pts cur_score cands none = none := by
  intro cands
  induction cands with
  | nil => rfl
  | cons c rest ih =>
    cases heval : evalFn (nudge_point_set cosFn cur_pts c.1 c.2 nudge_m) with
    | none =>
      simp only [scanBest, heval]
      exact ih
    | some sr0 =>
      simp only [scanBest, heval]
      rw [if_neg (by simp only [accImp]; exact not_lt.mpr (h _ _ heval))]
      exact ih

lemma set_interior_head? {β : Type} (l : List β) (i : ℕ) (a : β) (hi : 1 ≤ i) :
    (l.set i a).head? = l.head? := by
  cases l with
  | nil => rfl
  | cons x xs =>
    cases i with
    | zero => omega
    | succ n => rfl

lemma set_interior_getLast? {β : Type} (l : List β) (i : ℕ) (a : β)
    (hi : i + 1 < l.length) :
    (l.set i a).getLast? = l.getLast? := by
  rw [List.getLast?_eq_get?, List.getLast?_eq_get?, List.length_set]
  exact List.get?_set_ne _ _ (by omega)

lemma refineLoop_preserves {α} (evalFn : List (ℚ × ℚ) → Option (ℚ × α))
    (cosFn : ℚ → ℚ) (nudge_m threshold : ℚ) (cands : List (ℕ × Dir)) (L : ℕ)
    (hc : ∀ c ∈ cands, 1 ≤ c.1 ∧ c.1 + 1 < L) :
    ∀ (n : ℕ) (st : LSState α), st.points.length = L →
      (refineLoop evalFn cosFn nudge_m threshold cands n st).points.length = L ∧
      (refineLoop evalFn cosFn nudge_m threshold cands n st).points.head? =
        st.points.head? ∧
      (refineLoop evalFn cosFn nudge_m threshold cands n st).points.getLast? =
        st.points.getLast? := by
  intro n
  induction n with
  | zero =>
    intro st hlen
    exact ⟨hlen, rfl, rfl⟩
  | succ n ih =>
    intro st hlen
    cases hr : refineRound evalFn cosFn nudge_m threshold cands st with
    | none =>
      simp only [refineLoop, hr]
      exact ⟨hlen, trivial, trivial⟩
    | some st2 =>
      have hpts : ∃ c ∈ cands,
          st2.points = nudge_point_set cosFn st.points c.1 c.2 nudge_m := by
        cases hs : scanBest evalFn cosFn nudge_m st.points st.score cands none with
        | none =>
          simp only [refineRound, hs] at hr
          cases hr
        | some b =>
          simp only [refineRound, hs] at hr
          rcases scanBest_some_mem evalFn cosFn nudge_m st.points st.score cands
            none b hs with h1 | ⟨c, hcm, hb, _, _⟩
          · cases h1
          · by_cases hthr : threshold ≤ b.imp
            · rw [if_pos hthr] at hr
              obtain rfl := Option.some.inj hr
              exact ⟨c, hcm, hb⟩
            · rw [if_neg hthr] at hr; cases hr
      obtain ⟨c, hcm, hb⟩ := hpts
      obtain ⟨hc1, hc2⟩ := hc c hcm
      have hlen2 : st2.points.length = L := by
        rw [hb, nudge_point_set, List.length_set, hlen]
      have hhead : st2.points.head? = st.points.head? := by
        rw [hb, nudge_point_set]
        exact set_interior_head? _ _ _ hc1
      have hlast : st2.points.getLast? = st.points.getLast? := by
        rw [hb, nudge_point_set]
        exact set_interior_getLast? _ _ _ (by rw [hlen]; omega)
      obtain ⟨ih1, ih2, ih3⟩ := ih st2 hlen2
      simp only [refineLoop, hr]
      exact ⟨ih1, ih2.trans hhead, ih3.trans hlast⟩

/-- C10: with skip_first_last at its default true and more than 2 seed
points, local_search_refine returns a point list of the seed's length
whose first and last points equal the seed's, whatever the oracle did. -/
theorem C10_refine_preserves_endpoints (α : Type)
    (evalFn : List (ℚ × ℚ) → Option (ℚ × α)) (cosFn : ℚ → ℚ)
    (seed_points : List (ℚ × ℚ)) (seed_score : ℚ) (seed_result : α)
    (max_iterations : ℕ) (nudge_distance_m improvement_threshold : ℚ)
    (hlen : 2 < seed_points.length) :
    (local_search_refine evalFn cosFn seed_points seed_score seed_result
        max_iterations nudge_distance_m improvement_threshold true).1.length =
      seed_points.length ∧
    (local_search_refine evalFn cosFn seed_points seed_score seed_result
        max_iterations nudge_distance_m improvement_threshold true).1.head? =
      seed_points.head? ∧
    (local_search_refine evalFn cosFn seed_points seed_score seed_result
        max_iterations nudge_distance_m improvement_threshold true).1.getLast? =
      seed_points.getLast? := by
  unfold local_search_refine
  rw [if_pos ⟨rfl, hlen⟩]
  have hc : ∀ c ∈ (List.range' 1 (seed_points.length - 2)).flatMap
      (fun i => [Dir.N, Dir.S, Dir.E, Dir.W].map (fun d => (i, d))),
      1 ≤ c.1 ∧ c.1 + 1 < seed_points.length := by
    intro c hcm
    rw [List.mem_flatMap] at hcm
    obtain ⟨i, hi, hci⟩ := hcm
    rw [List.mem_range'] at hi
    obtain ⟨k, hk, rfl⟩ := hi
    have : c.1 = 1 + 1 * k := by
      rcases List.mem_map.mp hci with ⟨d, _, rfl⟩
      rfl
    omega
  exact refineLoop_preserves evalFn cosFn nudge_distance_m improvement_threshold
    _ seed_points.length hc max_iterations ⟨seed_points, seed_score, seed_result⟩ rfl

/-- Witness for C10 on a 4-point seed with an oracle that always
improves by 5 (so nudges are accepted), nudge 50 m, threshold 1. -/
theorem C10_witness :
    (2 < ([(0, 0), (0, 1), (1, 1), (1, 0)] : List (ℚ × ℚ)).length) ∧
    (local_search_refine (fun _ => some ((5 : ℚ), ())) (fun _ => 1)
        [(0, 0), (0, 1), (1, 1), (1, 0)] 0 () 3 50 1 true).1.head? =
      ([(0, 0), (0, 1), (1, 1), (1, 0)] : List (ℚ × ℚ)).head? ∧
    (local_search_refine (fun _ => some ((5 : ℚ), ())) (fun _ => 1)
        [(0, 0), (0, 1), (1, 1), (1, 0)] 0 () 3 50 1 true).1.getLast? =
      ([(0, 0), (0, 1), (1, 1), (1, 0)] : List (ℚ × ℚ)).getLast? := by
  have h := C10_refine_preserves_endpoints Unit (fun _ => some ((5 : ℚ), ()))
    (fun _ => 1) [(0, 0), (0, 1), (1, 1), (1, 0)] 0 () 3 50 1 (by norm_num)
  exact ⟨by norm_num, h.2.1, h.2.2⟩

/-- C5 (amended): each round accepts at most the single globally best
improving move, and accepts it exactly when its improvement is at least
(≥, not strictly above) the threshold, stopping otherwise; an oracle
scoring every nudge 10 points below the seed makes the refiner return
the unmodified seed triple. -/
theorem C5_hill_climb_accept :
    (∀ (α : Type) (evalFn : List (ℚ × ℚ) → Option (ℚ × α)) (cosFn : ℚ → ℚ)
        (nudge_m threshold : ℚ) (cands : List (ℕ × Dir)) (st st2 : LSState α),
      refineRound evalFn cosFn nudge_m threshold cands st = some st2 →
        threshold ≤ st2.score - st.score ∧ 0 < st2.score - st.score ∧
        (∃ c ∈ cands, st2.points = nudge_point_set cosFn st.points c.1 c.2 nudge_m ∧
          evalFn st2.points = some (st2.score, st2.result)) ∧
        (∀ c ∈ cands, ∀ sr : ℚ × α,
          evalFn (nudge_point_set cosFn st.points c.1 c.2 nudge_m) = some sr →
            sr.1 ≤ st2.score)) ∧
    (∀ (α : Type) (evalFn : List (ℚ × ℚ) → Option (ℚ × α)) (cosFn : ℚ → ℚ)
        (nudge_m threshold : ℚ) (cands : List (ℕ × Dir)) (st : LSState α) (n : ℕ),
      refineRound evalFn cosFn nudge_m threshold cands st = none →
        refineLoop evalFn cosFn nudge_m threshold cands n st = st) ∧
    (∀ (α : Type) (evalFn : List (ℚ × ℚ) → Option (ℚ × α)) (cosFn : ℚ → ℚ)
        (g : List (ℚ × ℚ) → α) (seed_points : List (ℚ × ℚ)) (seed_score : ℚ)
        (seed_result : α) (max_iterations : ℕ)
        (nudge_m threshold : ℚ) (skip_first_last : Bool),
      (∀ pts, evalFn pts = some (seed_score - 10, g pts)) →
        local_search_refine evalFn cosFn seed_points seed_score seed_result
          max_iterations nudge_m threshold skip_first_last =
          (seed_points, seed_score, seed_result)) := by
  refine ⟨?_, ?_, ?_⟩
  · intro α evalFn cosFn nudge_m threshold cands st st2 hr
    cases hs : scanBest evalFn cosFn nudge_m st.points st.score cands none with
    | none =>
      simp only [refineRound, hs] at hr
      cases hr
    | some b =>
      simp only [refineRound, hs] at hr
      by_cases hthr : threshold ≤ b.imp
      · rw [if_pos hthr] at hr
        obtain rfl := Option.some.inj hr
        rcases scanBest_some_mem evalFn cosFn nudge_m st.points st.score cands
          none b hs with h1 | ⟨c, hcm, hb, heval, himp⟩
        · cases h1
        obtain ⟨hmax1, hmax2⟩ := scanBest_max evalFn cosFn nudge_m st.points
          st.score cands none b hs
        have hpos : 0 < b.imp := by
          rcases hmax1 with h1 | h1
          · cases h1
          · exact h1
        refine ⟨?_, ?_, ⟨c, hcm, hb, heval⟩, ?_⟩
        · show threshold ≤ b.score - st.score
          rw [← himp]; exact hthr
        · show 0 < b.score - st.score
          rw [← himp]; exact hpos
        · intro c' hc' sr hsr
          have := hmax2 c' hc' sr hsr
          show sr.1 ≤ b.score
          rw [himp] at this
          linarith
      · rw [if_neg hthr] at hr
        cases hr
  · intro α evalFn cosFn nudge_m threshold cands st n hr
    cases n with
    | zero => rfl
    | succ n => simp only [refineLoop, hr]
  · intro α evalFn cosFn g seed_points seed_score seed_result max_iterations
      nudge_m threshold skip_first_last h
    have hsb : ∀ (cands : List (ℕ × Dir)) (cur_pts : List (ℚ × ℚ)),
        scanBest evalFn cosFn nudge_m cur_pts seed_score cands none = none := by
      intro cands cur_pts
      refine scanBest_none_of evalFn cosFn nudge_m cur_pts seed_score ?_ cands
      intro pts sr hsr
      rw [h pts] at hsr
      obtain rfl := Option.some.inj hsr
      norm_num
    simp only [local_search_refine]
    have hloop : ∀ (cands : List (ℕ × Dir)),
        refineLoop evalFn cosFn nudge_m threshold cands max_iterations
          ⟨seed_points, seed_score, seed_result⟩ =
          ⟨seed_points, seed_score, seed_result⟩ := by
      intro cands
      cases max_iterations with
      | zero => rfl
      | succ n =>
        have hr : refineRound evalFn cosFn nudge_m threshold cands
            ⟨seed_points, seed_score, seed_result⟩ = none := by
          simp only [refineRound, hsb]
        simp only [refineLoop, hr]
    rw [hloop]

/-- Seed, oracle and cosine stub for the C5 counterexample.  The oracle
scores every candidate exactly 1 point above the current seed score, so
the globally best improvement is exactly the 1.0 threshold. -/
def c5seed : List (ℚ × ℚ) := [(0, 0), (0, 1), (0, 2)]

def c5evalOne : List (ℚ × ℚ) → Option (ℚ × Unit) := fun _ => some (1, ())

def c5cos : ℚ → ℚ := fun _ => 1

/-- C5 counterexample: with every candidate improving by exactly 1.0 (=
the threshold, hence not exceeding it), the refiner still accepts the
move: the returned points differ from the seed, contradicting the claim
that a move is accepted only when its improvement exceeds 1.0. -/
theorem C5_counterexample :
    (local_search_refine c5evalOne c5cos c5seed 0 () 3 50 1 true).1 ≠ c5seed ∧
    local_search_refine c5evalOne c5cos c5seed 0 () 3 50 1 true =
      ([(0, 0), (5/11132, 1), (0, 2)], 1, ()) := by
  have h : local_search_refine c5evalOne c5cos c5seed 0 () 3 50 1 true =
      ([(0, 0), (5/11132, 1), (0, 2)], 1, ()) := by
    norm_num [local_search_refine, c5seed, c5evalOne, c5cos, refineLoop,
      refineRound, scanBest, accImp, nudge_point_set, nudge_point,
      meters_to_degrees_lat, meters_to_degrees_lng, List.range']
  refine ⟨?_, h⟩
  rw [h, c5seed]
  intro hc
  have := List.cons.inj hc
  have h2 := List.cons.inj this.2
  have h3 := Prod.mk.inj h2.1
  norm_num at h3

/-- Witness for C5's amended theorem: the degraded-oracle part applied
to a concrete 3-point seed, and the accept part applied to a round in
which the best candidate improves by 2 ≥ threshold 1. -/
theorem C5_witness :
    local_search_refine (fun _ => some ((0 : ℚ) - 10, ())) (fun _ => 1)
      [(0, 0), (0, 1), (0, 2)] 0 () 3 50 1 true = ([(0, 0), (0, 1), (0, 2)], 0, ()) :=
  C5_hill_climb_accept.2.2 Unit (fun _ => some ((0 : ℚ) - 10, ())) (fun _ => 1)
    (fun _ => ()) [(0, 0), (0, 1), (0, 2)] 0 () 3 50 1 true (fun _ => rfl)

/-! ## osrm_router.py — point-to-point backend

snap_to_roads_osrm routes every consecutive waypoint pair.  The network
call route_segment_osrm becomes the oracle parameter (none = failed
segment); the haversine helper becomes the straightFn parameter.  GPS
waypoints are (lat, lng); per-segment geometry is (lng, lat). -/

structure SegRoute where
  coordinates : List (ℚ × ℚ)
  distance_m : ℚ
  duration_s : ℚ

/-- Consecutive waypoint pairs (osrm_router.py line 137). -/
def mkSegments (gps_points : List (ℚ × ℚ)) : List ((ℚ × ℚ) × (ℚ × ℚ)) :=
  gps_points.zip gps_points.tail

/-- Batched-in-order parallel routing (lines 139-147): the reassembled
result list is the in-order map of the oracle over the segments. -/
def segResults (oracle : (ℚ × ℚ) → (ℚ × ℚ) → Option SegRoute)
    (segments : List ((ℚ × ℚ) × (ℚ × ℚ))) : List (Option SegRoute) :=
  segments.map (fun s => oracle s.1 s.2)

/-- Phase 2 (lines 148-169): indices of waypoints flagged as outliers.
The terminal waypoint i+1 of a segment with detour above threshold is
flagged unless it is the first or last waypoint. -/
def detourOutliers (straightFn : (ℚ × ℚ) → (ℚ × ℚ) → ℚ) (n : ℕ)
    (segRes : List (((ℚ × ℚ) × (ℚ × ℚ)) × Option SegRoute)) : List ℕ :=
  segRes.enum.filterMap (fun p =>
    match p.2.2 with
    | none => none
    | some sr =>
      let straight_m := max (straightFn p.2.1.1 p.2.1.2) MIN_STRAIGHT_LINE_M
      let detour_frac := sr.distance_m / straight_m
      if DETOUR_THRESHOLD < detour_frac ∧ 0 < p.1 + 1 ∧ p.1 + 1 < n - 1 then
        some (p.1 + 1)
      else none)

/-- The running maximum detour quotient of phase 2 (line 162), starting
from 1.0. -/
def maxDetourOf (straightFn : (ℚ × ℚ) → (ℚ × ℚ) → ℚ)
    (segRes : List (((ℚ × ℚ) × (ℚ × ℚ)) × Option SegRoute)) : ℚ :=
  segRes.foldl (fun acc p =>
    match p.2 with
    | none => acc
    | some sr => max acc (sr.distance_m / max (straightFn p.1.1 p.1.2) MIN_STRAIGHT_LINE_M)) 1

/-- Removal of flagged waypoints (line 180). -/
def removeIndices (gps_points : List (ℚ × ℚ)) (idxs : List ℕ) : List (ℚ × ℚ) :=
  (gps_points.enum.filter (fun p => decide (p.1 ∉ idxs))).map Prod.snd

/-- max_skips_allowed = int(len(points) × MAX_SKIP_FRAC) (line 131). -/
def maxSkipsAllowed (n : ℕ) : ℕ :=
  (⌊(n : ℚ) * MAX_SKIP_FRAC⌋).toNat

/-- Phases 1-3 of snap_to_roads_osrm: the final (segment, result) pairs
that phase 4 combines — re-routed without the outliers when they are
few enough, the original ones otherwise. -/
def finalSegRes (oracle : (ℚ × ℚ) → (ℚ × ℚ) → Option SegRoute)
    (straightFn : (ℚ × ℚ) → (ℚ × ℚ) → ℚ) (gps_points : List (ℚ × ℚ)) :
    List (((ℚ × ℚ) × (ℚ × ℚ)) × Option SegRoute) :=
  let segments := mkSegments gps_points
  let results := segResults oracle segments
  let outliers := detourOutliers straightFn gps_points.length (segments.zip results)
  if outliers ≠ [] ∧ outliers.length ≤ maxSkipsAllowed gps_points.length then
    let filtered_points := removeIndices gps_points outliers
    let new_segments := mkSegments filtered_points
    new_segments.zip (segResults oracle new_segments)
  else segments.zip results

/-- skipped_points as returned by snap_to_roads_osrm. -/
def skippedOf (oracle : (ℚ × ℚ) → (ℚ × ℚ) → Option SegRoute)
    (straightFn : (ℚ × ℚ) → (ℚ × ℚ) → ℚ) (gps_points : List (ℚ × ℚ)) : ℕ :=
  let segments := mkSegments gps_points
  let results := segResults oracle segments
  let outliers := detourOutliers straightFn gps_points.length (segments.zip results)
  if outliers ≠ [] ∧ outliers.length ≤ maxSkipsAllowed gps_points.length then
    outliers.length
  else 0

/-- The polyline contribution of segment i in phase 4 (lines 203-219):
a successful segment contributes its geometry (minus the duplicated
first point when i > 0); a failed one contributes the straight-line
fallback — its endpoint, preceded by its start point when i = 0.
Coordinates are swapped to (lng, lat). -/
def segContribution (i : ℕ) (seg : (ℚ × ℚ) × (ℚ × ℚ)) (res : Option SegRoute) :
    List (ℚ × ℚ) :=
  match res with
  | some sr => if 0 < i then sr.coordinates.drop 1 else sr.coordinates
  | none => (if i = 0 then [(seg.1.2, seg.1.1)] else []) ++ [(seg.2.2, seg.2.1)]

def combinedCoordsAux (i : ℕ) :
    List (((ℚ × ℚ) × (ℚ × ℚ)) × Option SegRoute) → List (ℚ × ℚ)
  | [] => []
  | p :: rest => segContribution i p.1 p.2 ++ combinedCoordsAux (i + 1) rest

/-- all_coords of phase 4. -/
def combinedCoords (segRes : List (((ℚ × ℚ) × (ℚ × ℚ)) × Option SegRoute)) :
    List (ℚ × ℚ) :=
  combinedCoordsAux 0 segRes

/-- total_distance of phase 4: only successful segments contribute. -/
def sumDistance (segRes : List (((ℚ × ℚ) × (ℚ × ℚ)) × Option SegRoute)) : ℚ :=
  (segRes.filterMap (fun p => p.2.map SegRoute.distance_m)).sum

/-- total_duration of phase 4: only successful segments contribute. -/
def sumDuration (segRes : List (((ℚ × ℚ) × (ℚ × ℚ)) × Option SegRoute)) : ℚ :=
  (segRes.filterMap (fun p => p.2.map SegRoute.duration_s)).sum

/-- failed_segments of phase 4. -/
def failedCount (segRes : List (((ℚ × ℚ) × (ℚ × ℚ)) × Option SegRoute)) : ℕ :=
  segRes.countP (fun p => p.2.isNone)

def needTwoPointsMsg : String := "Need at least 2 points for routing"

def allSegmentsFailedMsg : String := "OSRM routing failed for all segments"

/-- snap_to_roads_osrm (osrm_router.py lines 109-241). -/
def snap_to_roads_osrm (oracle : (ℚ × ℚ) → (ℚ × ℚ) → Option SegRoute)
    (straightFn : (ℚ × ℚ) → (ℚ × ℚ) → ℚ) (gps_points : List (ℚ × ℚ)) :
    Except String RoutingResult :=
  if gps_points.length < 2 then Except.error needTwoPointsMsg
  else
    let fr := finalSegRes oracle straightFn gps_points
    let all_coords := combinedCoords fr
    if all_coords = [] then Except.error allSegmentsFailedMsg
    else Except.ok
      ⟨all_coords, sumDistance fr, sumDuration fr, failedCount fr, fr.length,
        skippedOf oracle straightFn gps_points,
        roundTo (maxDetourOf straightFn
          ((mkSegments gps_points).zip (segResults oracle (mkSegments gps_points)))) 2⟩

lemma segContribution_none_mem (i : ℕ) (seg : (ℚ × ℚ) × (ℚ × ℚ)) :
    (seg.2.2, seg.2.1) ∈ segContribution i seg none := by
  simp only [segContribution]
  exact List.mem_append_right _ (List.mem_singleton_self _)

lemma combinedCoordsAux_mem :
    ∀ (l : List (((ℚ × ℚ) × (ℚ × ℚ)) × Option SegRoute)) (j i : ℕ)
      (seg : (ℚ × ℚ) × (ℚ × ℚ)), l.get? i = some (seg, none) →
      (seg.2.2, seg.2.1) ∈ combinedCoordsAux j l := by
  intro l
  induction l with
  | nil =>
    intro j i seg h
    cases h
  | cons p rest ih =>
    intro j i seg h
    cases i with
    | zero =>
      obtain rfl : p = (seg, none) := Option.some.inj h
      exact List.mem_append_left _ (segContribution_none_mem j seg)
    | succ i =>
      exact List.mem_append_right _ (ih (j + 1) i seg h)

/-- C3: with at least 2 waypoints, a returned result counts exactly the
failed segments of the final routing pass (never more than the total),
sums distance and duration over the successful segments only, contains
the straight-line fallback endpoint of every failed segment in its
polyline, and the only error after the length check is the one raised
when the combined polyline is empty. -/
theorem C3_partial_failure_tolerance (oracle : (ℚ × ℚ) → (ℚ × ℚ) → Option SegRoute)
    (straightFn : (ℚ × ℚ) → (ℚ × ℚ) → ℚ) (gps_points : List (ℚ × ℚ))
    (h2 : 2 ≤ gps_points.length) :
    (∀ res, snap_to_roads_osrm oracle straightFn gps_points = Except.ok res →
      res.failed_segments = failedCount (finalSegRes oracle straightFn gps_points) ∧
      res.total_segments = (finalSegRes oracle straightFn gps_points).length ∧
      res.failed_segments ≤ res.total_segments ∧
      res.distance_m = sumDistance (finalSegRes oracle straightFn gps_points) ∧
      res.duration_s = sumDuration (finalSegRes oracle straightFn gps_points) ∧
      (∀ (i : ℕ) (seg : (ℚ × ℚ) × (ℚ × ℚ)),
        (finalSegRes oracle straightFn gps_points).get? i = some (seg, none) →
        (seg.2.2, seg.2.1) ∈ res.route_coordinates)) ∧
    (∀ e, snap_to_roads_osrm oracle straightFn gps_points = Except.error e →
      combinedCoords (finalSegRes oracle straightFn gps_points) = [] ∧
      e = allSegmentsFailedMsg) := by
  have hnot : ¬ gps_points.length < 2 := not_lt.mpr h2
  constructor
  · intro res hres
    simp only [snap_to_roads_osrm] at hres
    rw [if_neg hnot] at hres
    by_cases hc : combinedCoords (finalSegRes oracle straightFn gps_points) = []
    · rw [if_pos hc] at hres
      cases hres
    · rw [if_neg hc] at hres
      obtain rfl := Except.ok.inj hres
      refine ⟨rfl, rfl, ?_, rfl, rfl, ?_⟩
      · exact List.countP_le_length _
      · intro i seg hseg
        exact combinedCoordsAux_mem _ 0 i seg hseg
  · intro e he
    simp only [snap_to_roads_osrm] at he
    rw [if_neg hnot] at he
    by_cases hc : combinedCoords (finalSegRes oracle straightFn gps_points) = []
    · rw [if_pos hc] at he
      exact ⟨hc, (Except.error.inj he).symm⟩
    · rw [if_neg hc] at he
      cases he

/-- Concrete inputs for the C3 witness: two waypoints whose single
segment fails, so the straight-line fallback is the whole polyline. -/
def c3pts : List (ℚ × ℚ) := [(0, 0), (0, 1)]

def c3res : RoutingResult := ⟨[(0, 0), (1, 0)], 0, 0, 1, 1, 0, 1⟩

/-- Witness for C3: the always-failing oracle on 2 points returns a
result with 1 failed of 1 total segments. -/
theorem C3_witness :
    (2 ≤ c3pts.length) ∧
    c3res.failed_segments = failedCount (finalSegRes (fun _ _ => none) (fun _ _ => 0) c3pts) ∧
    c3res.failed_segments ≤ c3res.total_segments := by
  have hsnap : snap_to_roads_osrm (fun _ _ => none) (fun _ _ => 0) c3pts =
      Except.ok c3res := by
    norm_num [snap_to_roads_osrm, c3pts, c3res, finalSegRes, mkSegments,
      segResults, detourOutliers, removeIndices, maxSkipsAllowed, skippedOf,
      combinedCoords, combinedCoordsAux, segContribution, sumDistance,
      sumDuration, failedCount, maxDetourOf, roundTo, roundHalfEven,
      MAX_SKIP_FRAC, List.enum]
    intro hx
    simp at hx
  have h := (C3_partial_failure_tolerance (fun _ _ => none) (fun _ _ => 0) c3pts
    (by norm_num [c3pts])).1 c3res hsnap
  exact ⟨by norm_num [c3pts], h.1, h.2.2.1⟩

/-! ## map_matcher.py — chunked directions backend

snap_to_roads splits more than MAPBOX_MAX_COORDS waypoints into
overlapping windows.  The Mapbox call _call_mapbox_directions becomes
the oracle parameter; an Except.error models its raised ValueError,
which the chunk loop re-raises.  The chunking is polymorphic in the
waypoint type, exactly as the source code is agnostic to it. -/

def MAPBOX_MAX_COORDS : ℕ := 25

structure MbResult where
  coordinates : List (ℚ × ℚ)
  distance_m : ℚ

/-- The while-loop of map_matcher.py lines 65-72, starting at index i:
slice [i, min(i+K, n)), then continue from the slice's last index
(overlap of one point) unless that index is already the last. -/
def chunkLoop {γ : Type} (pts : List γ) (i : ℕ) : List (List γ) :=
  if h : i < pts.length then
    if pts.length - 1 ≤ min (i + MAPBOX_MAX_COORDS) pts.length - 1 then
      [(pts.drop i).take (min (i + MAPBOX_MAX_COORDS) pts.length - i)]
    else
      (pts.drop i).take (min (i + MAPBOX_MAX_COORDS) pts.length - i) ::
        chunkLoop pts (min (i + MAPBOX_MAX_COORDS) pts.length - 1)
  else []
termination_by pts.length - i
decreasing_by
  simp only [MAPBOX_MAX_COORDS] at *
  omega

/-- The sequential per-chunk call loop of map_matcher.py lines 80-94:
the first error aborts the whole call; otherwise geometries are
concatenated, dropping the duplicated first point of every chunk after
the first, and distances are summed. -/
def assembleChunks {γ : Type} (oracle : List γ → Except String MbResult) :
    ℕ → List (List γ) → Except String (List (ℚ × ℚ) × ℚ)
  | _, [] => Except.ok ([], 0)
  | idx, c :: cs =>
    match oracle c with
    | Except.error e => Except.error e
    | Except.ok r =>
      match assembleChunks oracle (idx + 1) cs with
      | Except.error e => Except.error e
      | Except.ok pr =>
        Except.ok ((if 0 < idx then r.coordinates.drop 1 else r.coordinates) ++ pr.1,
          r.distance_m + pr.2)

/-- snap_to_roads (map_matcher.py lines 47-99). -/
def snap_to_roads {γ : Type} (oracle : List γ → Except String MbResult)
    (gps_points : List γ) : Except String MbResult :=
  if gps_points.length ≤ MAPBOX_MAX_COORDS then oracle gps_points
  else
    match assembleChunks oracle 0 (chunkLoop gps_points 0) with
    | Except.error e => Except.error e
    | Except.ok pr => Except.ok ⟨pr.1, pr.2⟩

/-- Property-side join of overlapping windows: the first window whole,
every later one minus its duplicated first element. -/
def chunkJoin {γ : Type} : List (List γ) → List γ
  | [] => []
  | c :: cs => c ++ (cs.map (List.drop 1)).flatten

/-- Property-side geometry concatenation for an all-success run. -/
def geomConcat : ℕ → List MbResult → List (ℚ × ℚ)
  | _, [] => []
  | idx, r :: rest =>
    (if 0 < idx then r.coordinates.drop 1 else r.coordinates) ++ geomConcat (idx + 1) rest

lemma chunkLoop_spec {γ : Type} (pts : List γ) :
    ∀ (k i : ℕ), pts.length - i ≤ k → i < pts.length →
      (∀ c ∈ chunkLoop pts i, c.length ≤ MAPBOX_MAX_COORDS) ∧
      chunkJoin (chunkLoop pts i) = pts.drop i ∧
      ((chunkLoop pts i).map (List.drop 1)).flatten = pts.drop (i + 1) ∧
      (∃ c cs, chunkLoop pts i = c :: cs ∧ c.head? = pts.get? i) ∧
      List.Chain' (fun a b => a.getLast? = b.head?) (chunkLoop pts i) := by
  intro k
  induction k with
  | zero =>
    intro i hk hi
    omega
  | succ k ih =>
    intro i hk hi
    have hm : MAPBOX_MAX_COORDS = 25 := rfl
    rw [chunkLoop, dif_pos hi]
    set e := min (i + MAPBOX_MAX_COORDS) pts.length with he_def
    have heN : e ≤ pts.length := min_le_right _ _
    have he25 : e ≤ i + MAPBOX_MAX_COORDS := min_le_left _ _
    have hei : i < e := by omega
    have hslice_head : ((pts.drop i).take (e - i)).head? = pts.get? i := by
      rw [← List.get?_zero, List.get?_take (by omega : 0 < e - i), List.get?_drop,
        Nat.add_zero]
    have hslice_last : ((pts.drop i).take (e - i)).getLast? = pts.get? (e - 1) := by
      have hlen : ((pts.drop i).take (e - i)).length = e - i := by
        rw [List.length_take, List.length_drop]
        omega
      rw [List.getLast?_eq_get?, hlen,
        List.get?_take (by omega : e - i - 1 < e - i), List.get?_drop]
      congr 1
      omega
    have hslice_len : ((pts.drop i).take (e - i)).length ≤ MAPBOX_MAX_COORDS := by
      rw [List.length_take, List.length_drop]
      omega
    have hdrop1 : List.drop 1 ((pts.drop i).take (e - i)) =
        (pts.drop (i + 1)).take (e - (i + 1)) := by
      rw [List.drop_take, List.drop_drop]
      congr 1
    have happend : (pts.drop i).take (e - i) ++ pts.drop e = pts.drop i := by
      have h0 := List.take_append_drop (e - i) (pts.drop i)
      rw [List.drop_drop, show i + (e - i) = e from by omega] at h0
      exact h0
    have happend1 : (pts.drop (i + 1)).take (e - (i + 1)) ++ pts.drop e =
        pts.drop (i + 1) := by
      have h0 := List.take_append_drop (e - (i + 1)) (pts.drop (i + 1))
      rw [List.drop_drop, show i + 1 + (e - (i + 1)) = e from by omega] at h0
      exact h0
    by_cases hbreak : pts.length - 1 ≤ e - 1
    · rw [if_pos hbreak]
      have hen : e = pts.length := by omega
      have hfull : (pts.drop i).take (e - i) = pts.drop i := by
        rw [hen, ← List.length_drop]
        exact List.take_length _
      refine ⟨?_, ?_, ?_, ?_, ?_⟩
      · intro c hc
        rw [List.mem_singleton] at hc
        subst hc
        exact hslice_len
      · simp only [chunkJoin, List.map_nil, List.flatten_nil, List.append_nil]
        exact hfull
      · simp only [List.map_cons, List.map_nil, List.flatten_cons, List.flatten_nil,
          List.append_nil]
        rw [hdrop1, hen, ← List.length_drop]
        exact List.take_length _
      · exact ⟨_, [], rfl, hslice_head⟩
      · exact List.chain'_singleton _
    · rw [if_neg hbreak]
      have hlt : e < pts.length := by omega
      have hfuel : pts.length - (e - 1) ≤ k := by omega
      obtain ⟨ih_len, ih_join, ih_tails, ⟨c', cs', hcons, hhead'⟩, ih_chain⟩ :=
        ih (e - 1) hfuel (by omega)
      have hee : e - 1 + 1 = e := by omega
      rw [hee] at ih_tails
      refine ⟨?_, ?_, ?_, ?_, ?_⟩
      · intro c hc
        rcases List.mem_cons.mp hc with rfl | hc
        · exact hslice_len
        · exact ih_len c hc
      · simp only [chunkJoin]
        rw [ih_tails]
        exact happend
      · simp only [List.map_cons, List.flatten_cons]
        rw [hdrop1, ih_tails]
        exact happend1
      · exact ⟨_, _, rfl, hslice_head⟩
      · rw [List.chain'_cons']
        refine ⟨?_, ih_chain⟩
        intro y hy
        rw [hcons] at hy
        simp only [List.head?_cons, Option.mem_def, Option.some.injEq] at hy
        subst hy
        rw [hslice_last, hhead']

lemma assembleChunks_ok {γ : Type} (oracle : List γ → Except String MbResult) :
    ∀ {chunks : List (List γ)} {rs : List MbResult},
      List.Forall₂ (fun c r => oracle c = Except.ok r) chunks rs →
      ∀ idx, assembleChunks oracle idx chunks =
        Except.ok (geomConcat idx rs, (rs.map MbResult.distance_m).sum) := by
  intro chunks rs h
  induction h with
  | nil =>
    intro idx
    simp [assembleChunks, geomConcat]
  | cons hcr htail ih =>
    intro idx
    simp only [assembleChunks, hcr, ih (idx + 1), geomConcat, List.map_cons,
      List.sum_cons]

lemma assembleChunks_error {γ : Type} (oracle : List γ → Except String MbResult)
    (e : String) :
    ∀ (cpre : List (List γ)) (c : List γ) (crest : List (List γ)) (idx : ℕ),
      (∀ c' ∈ cpre, ∃ r, oracle c' = Except.ok r) → oracle c = Except.error e →
      assembleChunks oracle idx (cpre ++ c :: crest) = Except.error e := by
  intro cpre
  induction cpre with
  | nil =>
    intro c crest idx hpre hc
    simp [assembleChunks, hc]
  | cons a t ih =>
    intro c crest idx hpre hc
    obtain ⟨r, hr⟩ := hpre a (List.mem_cons_self a t)
    simp only [List.cons_append, assembleChunks, hr, List.append_eq,
      ih c crest (idx + 1) (fun c' hc' => hpre c' (List.mem_cons_of_mem _ hc')) hc]

/-- C6: above 25 waypoints the chunked backend splits the input into
windows of at most 25 points overlapping by exactly one (each window's
last point is the next one's first), whose overlap-dropping join
reproduces the input in order; when every window call succeeds the
geometry concatenation drops the first returned point of every window
after the first and sums the distances, and a routing-error response on
any window (all earlier ones having succeeded) aborts the whole call
with that error. -/
theorem C6_chunked_directions (γ : Type) (pts : List γ)
    (h : MAPBOX_MAX_COORDS < pts.length) :
    (∀ c ∈ chunkLoop pts 0, c.length ≤ MAPBOX_MAX_COORDS) ∧
    List.Chain' (fun a b => a.getLast? = b.head?) (chunkLoop pts 0) ∧
    chunkJoin (chunkLoop pts 0) = pts ∧
    (∀ (oracle : List γ → Except String MbResult) (rs : List MbResult),
      List.Forall₂ (fun c r => oracle c = Except.ok r) (chunkLoop pts 0) rs →
      snap_to_roads oracle pts =
        Except.ok ⟨geomConcat 0 rs, (rs.map MbResult.distance_m).sum⟩) ∧
    (∀ (oracle : List γ → Except String MbResult) (e : String)
        (cpre : List (List γ)) (c : List γ) (crest : List (List γ)),
      chunkLoop pts 0 = cpre ++ c :: crest →
      (∀ c' ∈ cpre, ∃ r, oracle c' = Except.ok r) →
      oracle c = Except.error e →
      snap_to_roads oracle pts = Except.error e) := by
  have hm : MAPBOX_MAX_COORDS = 25 := rfl
  have h0 : 0 < pts.length := by omega
  obtain ⟨hlen, hjoin, _, _, hchain⟩ :=
    chunkLoop_spec pts pts.length 0 (by omega) h0
  have hnle : ¬ pts.length ≤ MAPBOX_MAX_COORDS := by omega
  refine ⟨hlen, hchain, ?_, ?_, ?_⟩
  · rw [hjoin, List.drop_zero]
  · intro oracle rs hall
    simp only [snap_to_roads]
    rw [if_neg hnle, assembleChunks_ok oracle hall 0]
  · intro oracle e cpre c crest hsplit hpre hc
    simp only [snap_to_roads]
    rw [if_neg hnle, hsplit, assembleChunks_error oracle e cpre c crest 0 hpre hc]

/-- Witness for C6: the 26-point input 0,…,25 splits into two windows
whose overlap-dropping join reproduces the input. -/
theorem C6_witness :
    MAPBOX_MAX_COORDS < (List.range 26).length ∧
    chunkJoin (chunkLoop (List.range 26) 0) = List.range 26 := by
  constructor
  · simp [MAPBOX_MAX_COORDS]
  · exact (C6_chunked_directions ℕ (List.range 26) (by simp [MAPBOX_MAX_COORDS])).2.2.1

/-! ## suggest_service.py — selection over candidate evaluations

suggest_best_route gathers one evaluation outcome per candidate shape
(evaluate_shape never raises: it catches internally and returns a dict
with success true or false).  The selection logic over the gathered
outcomes is embedded; an outcome keeps the fields the selection reads,
plus an id standing for the shape identity. -/

structure EvalOutcome where
  id : ℕ
  success : Bool
  score : ℚ
  deriving Repr, DecidableEq

def noCandidatesMsg (n : ℕ) : String :=
  "Could not find a suitable route. Tried " ++ toString n ++
    " shapes but none produced valid routes. Try a different location or distance."

/-- The selection tail of suggest_best_route (suggest_service.py lines
172-212): split successes from failures, raise when none succeeded,
else pick Python max (first of equal maxima) and the top-5 ranking
sorted by descending score. -/
def selectBestRoute (results : List EvalOutcome) :
    Except String (EvalOutcome × List EvalOutcome) :=
  match results.filter (fun r => r.success) with
  | [] => Except.error (noCandidatesMsg results.length)
  | h :: t =>
    Except.ok (t.foldl (fun acc x => if acc.score < x.score then x else acc) h,
      ((h :: t).mergeSort (fun a b => decide (b.score ≤ a.score))).take 5)

lemma foldlMax_mem :
    ∀ (t : List EvalOutcome) (h : EvalOutcome),
      t.foldl (fun acc x => if acc.score < x.score then x else acc) h ∈ h :: t := by
  intro t
  induction t with
  | nil =>
    intro h
    exact List.mem_singleton_self h
  | cons a t ih =>
    intro h
    rw [List.foldl_cons]
    by_cases hc : h.score < a.score
    · rw [if_pos hc]
      exact List.mem_cons_of_mem _ (ih a)
    · rw [if_neg hc]
      rcases List.mem_cons.mp (ih h) with h1 | h1
      · rw [h1]
        exact List.mem_cons_self _ _
      · exact List.mem_cons_of_mem _ (List.mem_cons_of_mem _ h1)

lemma foldlMax_ge :
    ∀ (t : List EvalOutcome) (h x : EvalOutcome), x ∈ h :: t →
      x.score ≤ (t.foldl (fun acc x => if acc.score < x.score then x else acc) h).score := by
  intro t
  induction t with
  | nil =>
    intro h x hx
    rw [List.mem_singleton] at hx
    rw [hx]
    exact le_refl _
  | cons a t ih =>
    intro h x hx
    rw [List.foldl_cons]
    have hstep : h.score ≤ (if h.score < a.score then a else h).score ∧
        a.score ≤ (if h.score < a.score then a else h).score := by
      by_cases hc : h.score < a.score
      · rw [if_pos hc]
        exact ⟨le_of_lt hc, le_refl _⟩
      · rw [if_neg hc]
        exact ⟨le_refl _, not_lt.mp hc⟩
    rcases List.mem_cons.mp hx with rfl | hx2
    · exact le_trans hstep.1 (ih _ _ (List.mem_cons_self _ _))
    · rcases List.mem_cons.mp hx2 with rfl | hx3
      · exact le_trans hstep.2 (ih _ _ (List.mem_cons_self _ _))
      · exact ih _ x (List.mem_cons_of_mem _ hx3)

/-- C8: the selector errors exactly when no candidate evaluation
succeeded; otherwise the winner is a successful candidate with maximal
score and the ranking holds at most 5 successful candidates in
descending score order. -/
theorem C8_suggest_selection (results : List EvalOutcome) :
    ((∃ e, selectBestRoute results = Except.error e) ↔
      ∀ r ∈ results, r.success = false) ∧
    (∀ best alts, selectBestRoute results = Except.ok (best, alts) →
      best.success = true ∧ best ∈ results ∧
      (∀ r ∈ results, r.success = true → r.score ≤ best.score) ∧
      alts.length ≤ 5 ∧
      (∀ a ∈ alts, a ∈ results ∧ a.success = true) ∧
      alts.Pairwise (fun a b => b.score ≤ a.score)) := by
  cases hf : results.filter (fun r => r.success) with
  | nil =>
    constructor
    · constructor
      · intro _ r hr
        have := List.filter_eq_nil.mp hf r hr
        simpa using this
      · intro _
        exact ⟨noCandidatesMsg results.length, by simp [selectBestRoute, hf]⟩
    · intro best alts hok
      simp [selectBestRoute, hf] at hok
  | cons h t =>
    have hmem : ∀ r, r ∈ h :: t → r ∈ results ∧ r.success = true := by
      intro r hr
      rw [← hf] at hr
      have := List.mem_filter.mp hr
      exact ⟨this.1, by simpa using this.2⟩
    constructor
    · constructor
      · intro ⟨e, he⟩
        simp [selectBestRoute, hf] at he
      · intro hall
        have := (hmem h (List.mem_cons_self h t)).1
        have hs := (hmem h (List.mem_cons_self h t)).2
        rw [hall h this] at hs
        cases hs
    · intro best alts hok
      simp only [selectBestRoute, hf] at hok
      obtain ⟨hbest, halts⟩ := Prod.mk.inj (Except.ok.inj hok)
      have hb_mem : best ∈ h :: t := by
        rw [← hbest]
        exact foldlMax_mem t h
      have hsorted := @List.sorted_mergeSort EvalOutcome
        (fun a b : EvalOutcome => decide (b.score ≤ a.score))
        (fun a b c h1 h2 => by
          simp only [decide_eq_true_eq] at *
          exact le_trans h2 h1)
        (fun a b => by
          simp only [Bool.or_eq_true, decide_eq_true_eq]
          exact le_total b.score a.score)
        (h :: t)
      refine ⟨(hmem best hb_mem).2, (hmem best hb_mem).1, ?_, ?_, ?_, ?_⟩
      · intro r hr hrs
        have hrf : r ∈ h :: t := by
          rw [← hf]
          exact List.mem_filter.mpr ⟨hr, by simp [hrs]⟩
        rw [← hbest]
        exact foldlMax_ge t h r hrf
      · rw [← halts]
        exact List.length_take_le 5 _
      · intro a ha
        rw [← halts] at ha
        have h1 : a ∈ (h :: t).mergeSort (fun a b => decide (b.score ≤ a.score)) :=
          (List.take_sublist 5 _).subset ha
        have h2 : a ∈ h :: t := (List.mergeSort_perm (h :: t) _).subset h1
        exact hmem a h2
      · rw [← halts]
        have hp : ((h :: t).mergeSort (fun a b => decide (b.score ≤ a.score))).Pairwise
            (fun a b => b.score ≤ a.score) := by
          refine hsorted.imp ?_
          intro a b hab
          simpa using hab
        exact hp.sublist (List.take_sublist 5 _)

/-- Witness for C8: one failed and one successful outcome; the selector
returns the successful one and a one-element ranking. -/
theorem C8_witness :
    (⟨1, true, 3⟩ : EvalOutcome) ∈ [(⟨0, false, 0⟩ : EvalOutcome), ⟨1, true, 3⟩] ∧
    ([(⟨1, true, 3⟩ : EvalOutcome)] : List EvalOutcome).length ≤ 5 := by
  have hok : selectBestRoute [⟨0, false, 0⟩, ⟨1, true, 3⟩] =
      Except.ok (⟨1, true, 3⟩, [⟨1, true, 3⟩]) := by
    simp [selectBestRoute, List.mergeSort]
  have h := (C8_suggest_selection [⟨0, false, 0⟩, ⟨1, true, 3⟩]).2
    ⟨1, true, 3⟩ [⟨1, true, 3⟩] hok
  exact ⟨h.2.1, h.2.2.2.1⟩
